import Mathlib

/-!
Shallow embedding of `src/yc_radar.py` (YC Radar: change detection and
webhook delivery for the YC company directory).

Network and filesystem effects are modelled explicitly:
* the Algolia client is an oracle structure (`Client`) whose three query
  shapes may fail with a transport error, mirroring
  `fetch_count` / `fetch_since` / `fetch_all_companies` after retry
  exhaustion;
* every externally visible action of a run (catalog calls, webhook
  delivery attempts, state saves, pending-file writes) is recorded in an
  event trace, so ordering properties of `main` are statements about the
  trace;
* webhook delivery outcomes are an oracle `deliver : Hit → Bool`
  (the result of `send_webhook` for that hit after its retries);
* `save_state` is additionally modelled at the filesystem-operation level
  (`save_state_ops`) to reason about the write strategy.
-/

namespace YcRadar

/-- An Algolia hit, restricted to the fields the engine inspects.
`objectID` and `id` drive `hit_id`; `name` is carried opaquely. -/
structure Hit where
  objectID : Option String
  id : Option String
  name : Option String
  deriving DecidableEq, Repr

/-- Persisted known-companies state, as read back by `load_state`:
`known_ids`, `total_count` and `last_run_timestamp` (missing keys default
to `[]` / `0` in the source, so the fields are total here). The loaded
`known_ids` list is converted to `set(str(kid) for kid in ...)` before
any use, so it is modelled directly as a set of strings; the sorted list
layout of the state file itself is modelled separately by
`StateRecord`. -/
structure KnownState where
  known_ids : Finset String
  total_count : Nat
  last_run_timestamp : Int
  deriving DecidableEq

/-- Equality of modelled call results is decidable. -/
instance exceptDecEq {ε α : Type} [DecidableEq ε] [DecidableEq α] :
    DecidableEq (Except ε α) := fun x y =>
  match x, y with
  | .ok a, .ok b =>
    if h : a = b then .isTrue (by rw [h])
    else .isFalse (fun hc => h (by cases hc; rfl))
  | .error a, .error b =>
    if h : a = b then .isTrue (by rw [h])
    else .isFalse (fun hc => h (by cases hc; rfl))
  | .ok _, .error _ => .isFalse (fun hc => by cases hc)
  | .error _, .ok _ => .isFalse (fun hc => by cases hc)

/-- The remote catalog oracle: results of the three query shapes for this
run. `Except.error` models a `requests.RequestException` escaping
`algolia_query` after retry exhaustion. -/
structure Client where
  fetchCount : Except Unit Nat
  fetchSince : Int → Except Unit (List Hit)
  fetchAll : Except Unit (List Hit)

/-- Which call site of `send_all_webhooks` produced a delivery attempt:
the pending-drain at the start of `main`, or the delivery of this run's
fresh `new_hits`. -/
inductive Phase where
  | drain
  | fresh
  deriving DecidableEq, Repr

/-- Externally visible events of one run, in order. -/
inductive Event where
  | callCount
  | callSince (t : Int)
  | callAll
  | attempt (ph : Phase) (h : Hit) (ok : Bool)
  | saveStateEv (ids : Finset String) (count : Nat)
  | savePendingEv (batch : List Hit)
  | clearPendingEv
  deriving DecidableEq

abbrev Trace := List Event

/-- Python `hit.get(k) or fallback`: an empty string is falsy. -/
def pyOr (a : Option String) (b : String) : String :=
  match a with
  | none => b
  | some s => if s = "" then b else s

/-- `hit_id`: `str(hit.get("objectID") or hit.get("id") or "")`. -/
def hit_id (h : Hit) : String :=
  pyOr h.objectID (pyOr h.id "")

/-- Ids of a list of hits, as a set (`set(hit_id(h) for h in hits)`). -/
def allIdsOf (hits : List Hit) : Finset String :=
  (hits.map hit_id).toFinset

/-- The deduplicated, empty-filtered baseline ids built by `seed`:
`list(set(kid for kid in known_ids if kid))`. -/
def seedIds (hits : List Hit) : Finset String :=
  ((hits.map hit_id).filter (fun s => !(s = ""))).toFinset

/-- `seed(data_dir)`: full fetch, then count, then `save_state`; returns
the deduplicated known-id set together with the fetched total (the total
is persisted by `seed`'s own `save_state` call). -/
def seed (c : Client) : Trace × Except Unit (Finset String × Nat) :=
  match c.fetchAll with
  | .error e => ([.callAll], .error e)
  | .ok allHits =>
    match c.fetchCount with
    | .error e => ([.callAll, .callCount], .error e)
    | .ok total =>
      ([.callAll, .callCount, .saveStateEv (seedIds allHits) total],
       .ok (seedIds allHits, total))

/-- The fallback full-fetch computation of `detect_new` (lines 324-337):
`new_ids = all_ids - known_ids; new_hits = [h for h in all_hits if
hit_id(h) in new_ids]`. -/
def fallbackHits (allHits : List Hit) (known : Finset String) : List Hit :=
  allHits.filter (fun h => decide (hit_id h ∈ allIdsOf allHits \ known))

/-- The new hits of the timestamp-window path (detect_new lines 309-310):
`[h for h in recent_hits if hit_id(h) not in known_ids]`. -/
def windowHits (recent : List Hit) (known : Finset String) : List Hit :=
  recent.filter (fun h => decide (hit_id h ∉ known))

/-- The body of `detect_new` when persisted state exists: count check,
then the timestamp-window shortcut, then the full batch-partitioned
fallback. -/
def detect_new_known (c : Client) (st : KnownState) (force_full : Bool) :
    Trace × Except Unit (List Hit × Finset String × Nat) :=
  match c.fetchCount with
  | .error e => ([.callCount], .error e)
  | .ok current =>
    if current = st.total_count ∧ force_full = false then
      ([.callCount], .ok ([], st.known_ids, current))
    else if force_full = false ∧ 0 < st.last_run_timestamp then
      match c.fetchSince st.last_run_timestamp with
      | .error e => ([.callCount, .callSince st.last_run_timestamp], .error e)
      | .ok recent =>
        if windowHits recent st.known_ids = [] then
          if st.total_count < current then
            match c.fetchAll with
            | .error e =>
              ([.callCount, .callSince st.last_run_timestamp, .callAll], .error e)
            | .ok allHits =>
              ([.callCount, .callSince st.last_run_timestamp, .callAll],
               .ok (fallbackHits allHits st.known_ids,
                    st.known_ids ∪ allIdsOf allHits, current))
          else
            ([.callCount, .callSince st.last_run_timestamp],
             .ok ([], st.known_ids, current))
        else
          ([.callCount, .callSince st.last_run_timestamp],
           .ok (windowHits recent st.known_ids,
                st.known_ids ∪ ((windowHits recent st.known_ids).map hit_id).toFinset,
                current))
    else
      match c.fetchAll with
      | .error e => ([.callCount, .callAll], .error e)
      | .ok allHits =>
        ([.callCount, .callAll],
         .ok (fallbackHits allHits st.known_ids,
              st.known_ids ∪ allIdsOf allHits, current))

/-- `detect_new(data_dir, force_full)`: returns the trace of catalog
calls (plus `seed`'s internal save on the first-run path) and either a
transport error or `(new_hits, all_known_ids, current_count)`. -/
def detect_new (c : Client) (state : Option KnownState) (force_full : Bool) :
    Trace × Except Unit (List Hit × Finset String × Nat) :=
  match state with
  | none =>
    match seed c with
    | (tr, .error e) => (tr, .error e)
    | (tr, .ok (ids, _)) => (tr, .ok ([], ids, ids.card))
  | some st => detect_new_known c st force_full

/-- `send_all_webhooks(url, hits, data_dir)`: one delivery per hit;
returns `(sent, failed)`. -/
def send_all_webhooks (deliver : Hit → Bool) (hits : List Hit) : Nat × List Hit :=
  (hits.countP (fun h => deliver h), hits.filter (fun h => !(deliver h)))

/-- The trace of delivery attempts of one `send_all_webhooks` call. -/
def attemptTrace (ph : Phase) (deliver : Hit → Bool) (hits : List Hit) : Trace :=
  hits.map (fun h => .attempt ph h (deliver h))

/-- The pending-drain block at the top of `main` (lines 388-399): runs
only with a webhook configured and not in dry-run mode; a pending file
holding an empty list is falsy in Python and is left untouched. Returns
the drain trace and the pending file contents after the drain. -/
def drain (webhook dry : Bool) (pending : Option (List Hit))
    (deliver : Hit → Bool) : Trace × Option (List Hit) :=
  if webhook = true ∧ dry = false then
    match pending with
    | none => ([], none)
    | some p =>
      if p = [] then ([], some p)
      else if (send_all_webhooks deliver p).2 = [] then
        (attemptTrace .drain deliver p ++ [.clearPendingEv], none)
      else
        (attemptTrace .drain deliver p ++ [.savePendingEv ((send_all_webhooks deliver p).2)],
         some ((send_all_webhooks deliver p).2))
  else ([], pending)

/-- Observable outcome of one `main` run: the event trace, the process
exit code, the pending file and state file contents at process end, and
the `new_hits` surfaced by this run's detection. -/
structure RunResult where
  trace : Trace
  exit : Nat
  pendingAfter : Option (List Hit)
  stateAfter : Option KnownState
  newHits : List Hit

/-- `main()`: drain pending, then either force re-seed (`--seed`) or run
detection, save state, report, and deliver fresh hits. `now` is the
wall-clock instant captured by `save_state`. A transport error raised by
`seed` on the `--seed` path escapes uncaught (process status 1); one
raised inside `detect_new` is caught and turned into `sys.exit(1)`. -/
def main_run (dry seedF force_full webhook : Bool)
    (pending : Option (List Hit)) (state : Option KnownState)
    (c : Client) (deliver : Hit → Bool) (now : Int) : RunResult :=
  let d := drain webhook dry pending deliver
  if seedF then
    match seed c with
    | (tr, .error _) => ⟨d.1 ++ tr, 1, d.2, state, []⟩
    | (tr, .ok (ids, total)) =>
      ⟨d.1 ++ tr, 0, d.2, some ⟨ids, total, now⟩, []⟩
  else
    match detect_new c state force_full with
    | (tr, .error _) => ⟨d.1 ++ tr, 1, d.2, state, []⟩
    | (tr, .ok (newHits, ids, cnt)) =>
      let st' : KnownState := ⟨ids, cnt, now⟩
      let base := d.1 ++ tr ++ [.saveStateEv ids cnt]
      if newHits = [] then ⟨base, 0, d.2, some st', []⟩
      else if dry then ⟨base, 0, d.2, some st', newHits⟩
      else if webhook = false then ⟨base, 0, d.2, some st', newHits⟩
      else
        let failed := (send_all_webhooks deliver newHits).2
        if failed = [] then
          ⟨base ++ attemptTrace .fresh deliver newHits ++ [.clearPendingEv],
           0, none, some st', newHits⟩
        else
          ⟨base ++ attemptTrace .fresh deliver newHits ++ [.savePendingEv failed],
           1, some failed, some st', newHits⟩

/-- The full record written by `save_state`: both timestamp fields are
renderings of the same captured instant `now` (`now.isoformat()` and
`int(now.timestamp())`), modelled as that instant. -/
structure StateRecord where
  last_run_at : Int
  last_run_timestamp : Int
  total_count : Nat
  known_ids : List String
  version : Nat
  deriving DecidableEq, Repr

/-- Filesystem operations issued by the state store. -/
inductive FsOp where
  | mkdirParents (dir : String)
  | write (path : String) (content : StateRecord)
  | rename (src dst : String)
  deriving DecidableEq, Repr

/-- `Path(data_dir) / STATE_FILE`. -/
def statePath (dataDir : String) : String :=
  dataDir ++ "/known_companies.json"

/-- Python `sorted` on a list of strings. -/
def sortedStrings (l : List String) : List String :=
  l.mergeSort (fun a b => a ≤ b)

/-- `save_state(data_dir, known_ids, total_count)` as the sequence of
filesystem operations it performs: create the parent directory, then
open the state file for writing and dump the record into it. -/
def save_state_ops (dataDir : String) (known_ids : List String)
    (total_count : Nat) (now : Int) : List FsOp :=
  [.mkdirParents dataDir,
   .write (statePath dataDir)
     { last_run_at := now, last_run_timestamp := now,
       total_count := total_count, known_ids := sortedStrings known_ids,
       version := 1 }]

/-- Modelled from the spec: the write-to-temp-then-replace strategy —
the persisted record is first written to a temporary path and then
renamed over the final path, so the final path is never left holding a
partial write. -/
def writeTempThenReplace (ops : List FsOp) (finalPath : String) : Prop :=
  ∃ pre tmp content, tmp ≠ finalPath ∧
    ops = pre ++ [FsOp.write tmp content, FsOp.rename tmp finalPath]

/-- Detection-work events: the catalog calls issued by `seed` and
`detect_new`. -/
def isDetectEv : Event → Bool
  | .callCount => true
  | .callSince _ => true
  | .callAll => true
  | _ => false

/-- State-save events. -/
def isSaveState : Event → Bool
  | .saveStateEv _ _ => true
  | _ => false

/-- Fresh-phase delivery attempts. -/
def isFreshAttempt : Event → Bool
  | .attempt .fresh _ _ => true
  | _ => false

/-- A trace contains no fresh-phase delivery attempt. -/
def noFresh (tr : Trace) : Bool :=
  tr.all (fun e => !(isFreshAttempt e))

/-- Scanning the trace from the start, a state save occurs before the
first fresh-phase delivery attempt (vacuously true when there is none). -/
def savedBeforeFresh : Trace → Bool
  | [] => true
  | e :: tr =>
    if isSaveState e then true
    else if isFreshAttempt e then false
    else savedBeforeFresh tr

/-- The hit was delivered successfully at some point during the run. -/
@[reducible] def deliveredDuringRun (r : RunResult) (h : Hit) : Prop :=
  Event.attempt .drain h true ∈ r.trace ∨ Event.attempt .fresh h true ∈ r.trace

/-- Whether the detection phase of the run (either `seed` under `--seed`
or `detect_new`) raises a transport error. -/
def runDetectErred (seedF force_full : Bool) (c : Client)
    (state : Option KnownState) : Bool :=
  if seedF then
    match (seed c).2 with
    | .error _ => true
    | .ok _ => false
  else
    match (detect_new c state force_full).2 with
    | .error _ => true
    | .ok _ => false

/-- The subset of this run's fresh `new_hits` whose delivery fails,
recomputed from the run's inputs: empty unless the run reaches the
fresh-delivery block of `main`. -/
def freshFailed (dry seedF force_full webhook : Bool) (c : Client)
    (state : Option KnownState) (deliver : Hit → Bool) : List Hit :=
  if seedF then []
  else
    match (detect_new c state force_full).2 with
    | .error _ => []
    | .ok (newHits, _, _) =>
      if newHits = [] then []
      else if dry then []
      else if webhook = false then []
      else (send_all_webhooks deliver newHits).2

/-- Claim C1 as stated, at given run inputs with persisted pending batch
`p`: every pending item's delivery is attempted before any detection
work, and at the end of the run the persisted pending state still
contains every start-pending item that was not delivered successfully
during the run. -/
@[reducible] def claimC1 (dry seedF force_full webhook : Bool) (p : List Hit)
    (state : Option KnownState) (c : Client) (deliver : Hit → Bool)
    (now : Int) : Prop :=
  p ≠ [] →
    (∀ h ∈ p,
      Event.attempt .drain h (deliver h) ∈
        (main_run dry seedF force_full webhook (some p) state c deliver now).trace.takeWhile
          (fun e => !(isDetectEv e))) ∧
    (∀ h ∈ p,
      ¬ deliveredDuringRun (main_run dry seedF force_full webhook (some p) state c deliver now) h →
      h ∈ (main_run dry seedF force_full webhook (some p) state c deliver now).pendingAfter.getD [])

/-- The successful result of `detect_new`, with a neutral default on the
transport-error path (used to phrase claims about the returned triple). -/
def detectResult (c : Client) (state : Option KnownState)
    (force_full : Bool) : List Hit × Finset String × Nat :=
  match (detect_new c state force_full).2 with
  | .error _ => ([], ∅, 0)
  | .ok r => r

/-- Claim C6 as stated, at given `detect_new` inputs: records with no
derivable id never appear among the new hits, and the empty id is never
added to the returned known-id set (vacuous on the error path, where
`detectResult` is the neutral triple). -/
@[reducible] def noIdlessSurfaced (c : Client) (state : Option KnownState)
    (force_full : Bool) : Prop :=
  (∀ h ∈ (detectResult c state force_full).1, hit_id h ≠ "") ∧
  "" ∉ (detectResult c state force_full).2.1

/-- Claim C7 as stated, at given `detect_new` inputs: the returned new
hits contain at most one record per distinct id. -/
@[reducible] def atMostOnePerId (c : Client) (state : Option KnownState)
    (force_full : Bool) : Prop :=
  ((detectResult c state force_full).1.map hit_id).Nodup

/-- A delivery attempted during this run failed and the failed item is
persisted in the pending file at the end of the run. -/
@[reducible] def stillFailingAfterRun (r : RunResult) : Prop :=
  ∃ h ∈ r.pendingAfter.getD [],
    Event.attempt .drain h false ∈ r.trace ∨ Event.attempt .fresh h false ∈ r.trace

/-- Claim C8 as stated, at given run inputs: the exit code is 1 exactly
when detection raised a transport error or some delivery of the run
(pending retries included) is still failing afterwards. -/
@[reducible] def claimC8 (dry seedF force_full webhook : Bool) (pending : Option (List Hit))
    (state : Option KnownState) (c : Client) (deliver : Hit → Bool)
    (now : Int) : Prop :=
  (main_run dry seedF force_full webhook pending state c deliver now).exit = 1 ↔
    (runDetectErred seedF force_full c state = true ∨
     stillFailingAfterRun (main_run dry seedF force_full webhook pending state c deliver now))

/-! Concrete fixtures used by counterexamples and witnesses. -/

/-- A hit with id `"p"`, sitting in the pending queue of earlier runs. -/
def pHit : Hit := ⟨some "p", none, some "Pending Co"⟩

/-- A hit with id `"n"`, newly present in the catalog. -/
def nHit : Hit := ⟨some "n", none, some "New Co"⟩

/-- A hit with id `"a"`. -/
def hitA : Hit := ⟨some "a", none, some "A Co"⟩

/-- A hit with id `"b"`. -/
def hitB : Hit := ⟨some "b", none, some "B Co"⟩

/-- A hit carrying no derivable id at all. -/
def hNoId : Hit := ⟨none, none, some "No Id Co"⟩

/-- A hit with id `"x"`. -/
def hX : Hit := ⟨some "x", none, some "X Co"⟩

/-- A second, distinct record with the same id `"x"` as `hX`. -/
def hXdup : Hit := ⟨some "x", none, some "X Co again"⟩

/-- Empty prior state (no known ids, count 0, watermark 0). -/
def st0 : KnownState := ⟨∅, 0, 0⟩

/-- Prior state knowing `"x"` with stored count 5 and watermark 0. -/
def st5 : KnownState := ⟨{"x"}, 5, 0⟩

/-- Prior state with no known ids, stored count 0 and watermark 5. -/
def st6 : KnownState := ⟨∅, 0, 5⟩

/-- Prior state that already contains the empty id. -/
def st6w : KnownState := ⟨{""}, 0, 5⟩

/-- Prior state knowing `"a"`, stored count 1, watermark 50. -/
def st4 : KnownState := ⟨{"a"}, 1, 50⟩

/-- Prior state knowing `"A"` and `"B"`, stored count 2. -/
def stAB : KnownState := ⟨{"A", "B"}, 2, 0⟩

/-- Catalog oracle: count 1, empty window, full fetch `[nHit]`. -/
def c1client : Client := ⟨.ok 1, fun _ => .ok [], .ok [nHit]⟩

/-- Delivery oracle that succeeds exactly on id `"n"`. -/
def c1deliver : Hit → Bool := fun h => decide (hit_id h = "n")

/-- Catalog oracle whose count (5) disagrees with its single fetched
hit. -/
def c2client : Client := ⟨.ok 5, fun _ => .ok [], .ok [hitA]⟩

/-- Catalog oracle with count 7, used to exercise the unchanged-count
path against stored count 7. -/
def c3client : Client := ⟨.ok 7, fun _ => .ok [hitA], .ok [hitA, hitB]⟩

/-- Prior state with stored count 7. -/
def st3 : KnownState := ⟨{"a", "b"}, 7, 100⟩

/-- Catalog oracle: count 2, window returning `[hitA, hitB]`. -/
def c4client : Client := ⟨.ok 2, fun _ => .ok [hitA, hitB], .ok []⟩

/-- Four hits with ids `"A"`, `"B"`, `"C"`, `"D"`. -/
def hA : Hit := ⟨some "A", none, some "A"⟩

/-- Hit with id `"B"`. -/
def hB : Hit := ⟨some "B", none, some "B"⟩

/-- Hit with id `"C"`. -/
def hC : Hit := ⟨some "C", none, some "C"⟩

/-- Hit with id `"D"`. -/
def hD : Hit := ⟨some "D", none, some "D"⟩

/-- Catalog oracle whose full fetch returns ids `{A,B,C,D}`. -/
def cABCD : Client := ⟨.ok 4, fun _ => .ok [], .ok [hA, hB, hC, hD]⟩

/-- Catalog oracle whose window query returns one id-less record. -/
def c6client : Client := ⟨.ok 1, fun _ => .ok [hNoId], .ok []⟩

/-- Catalog oracle whose window query returns an id-less record and a
record with id `"x"`. -/
def c6wclient : Client := ⟨.ok 1, fun _ => .ok [hNoId, hX], .ok []⟩

/-- Catalog oracle whose full fetch returns two records sharing id
`"x"`. -/
def cdup : Client := ⟨.ok 2, fun _ => .ok [], .ok [hX, hXdup]⟩

/-- Catalog oracle whose full fetch returns the same record `hX`
twice. -/
def cdup2 : Client := ⟨.ok 2, fun _ => .ok [], .ok [hX, hX]⟩

/-- Catalog oracle: count 5 (matching `st5`), so a run over it takes the
unchanged-count path. -/
def c8client : Client := ⟨.ok 5, fun _ => .ok [], .ok []⟩

/-- Delivery oracle that always fails. -/
def deliverNone : Hit → Bool := fun _ => false

/-- Delivery oracle that always succeeds. -/
def deliverAll : Hit → Bool := fun _ => true

/-! Helper lemmas. -/

theorem mem_takeWhile_append {α : Type} {pr : α → Bool} :
    ∀ {l1 : List α} (l2 : List α) {a : α}, (∀ x ∈ l1, pr x = true) → a ∈ l1 →
      a ∈ (l1 ++ l2).takeWhile pr
  | [], _, _, _, ha => absurd ha (List.not_mem_nil _)
  | b :: t, l2, a, hall, ha => by
    have hb := hall b (List.mem_cons_self _ _)
    simp only [List.cons_append, List.takeWhile_cons, hb, if_true]
    rcases List.mem_cons.mp ha with rfl | hmem
    · exact List.mem_cons_self _ _
    · exact List.mem_cons_of_mem _
        (mem_takeWhile_append l2 (fun x hx => hall x (List.mem_cons_of_mem _ hx)) hmem)

theorem savedBeforeFresh_of_noFresh :
    ∀ {tr : Trace}, noFresh tr = true → savedBeforeFresh tr = true
  | [], _ => rfl
  | e :: tr, h => by
    have h' : (!(isFreshAttempt e)) = true ∧ noFresh tr = true := by
      simpa [noFresh, List.all_cons] using h
    have hf : isFreshAttempt e = false := by simpa using h'.1
    by_cases hs : isSaveState e = true
    · simp [savedBeforeFresh, hs]
    · simp only [savedBeforeFresh, hs, hf, if_false]
      exact savedBeforeFresh_of_noFresh h'.2

theorem savedBeforeFresh_append_save :
    ∀ {l1 : Trace} (ids : Finset String) (cnt : Nat) (l2 : Trace),
      noFresh l1 = true →
      savedBeforeFresh (l1 ++ Event.saveStateEv ids cnt :: l2) = true
  | [], ids, cnt, l2, _ => by simp [savedBeforeFresh, isSaveState]
  | e :: t, ids, cnt, l2, h => by
    have h' : (!(isFreshAttempt e)) = true ∧ noFresh t = true := by
      simpa [noFresh, List.all_cons] using h
    have hf : isFreshAttempt e = false := by simpa using h'.1
    by_cases hs : isSaveState e = true
    · simp [savedBeforeFresh, hs]
    · simp only [List.cons_append, savedBeforeFresh, hs, hf, if_false]
      exact savedBeforeFresh_append_save ids cnt l2 h'.2

theorem noFresh_append (l1 l2 : Trace) :
    noFresh (l1 ++ l2) = (noFresh l1 && noFresh l2) := by
  simp [noFresh, List.all_append]

theorem noFresh_attemptTrace_drain (deliver : Hit → Bool) (hits : List Hit) :
    noFresh (attemptTrace .drain deliver hits) = true := by
  simp only [noFresh, attemptTrace, List.all_eq_true]
  intro e he
  rcases List.mem_map.mp he with ⟨h, _, rfl⟩
  rfl

theorem detects_attemptTrace (ph : Phase) (deliver : Hit → Bool) (hits : List Hit) :
    ∀ e ∈ attemptTrace ph deliver hits, (!(isDetectEv e)) = true := by
  simp only [attemptTrace, List.mem_map]
  rintro e ⟨h, _, rfl⟩
  rfl

theorem detect_new_known_ok (c : Client) (st : KnownState) (ff : Bool)
    {hits : List Hit} {ids : Finset String} {cnt : Nat}
    (h : (detect_new_known c st ff).2 = .ok (hits, ids, cnt)) :
    (hits = [] ∧ ids = st.known_ids) ∨
    (∃ recent, c.fetchSince st.last_run_timestamp = .ok recent ∧
      hits = windowHits recent st.known_ids ∧
      ids = st.known_ids ∪ (hits.map hit_id).toFinset) ∨
    (∃ allHits, c.fetchAll = .ok allHits ∧
      hits = fallbackHits allHits st.known_ids ∧
      ids = st.known_ids ∪ allIdsOf allHits) := by
  unfold detect_new_known at h
  split at h
  · simp at h
  · rename_i current heq
    split at h
    · simp at h
      obtain ⟨h1, h2, h3⟩ := h
      subst_vars
      exact Or.inl ⟨rfl, rfl⟩
    · split at h
      · split at h
        · simp at h
        · rename_i recent hsince
          split at h
          · split at h
            · split at h
              · simp at h
              · rename_i allHits hall
                simp at h
                obtain ⟨h1, h2, h3⟩ := h
                subst_vars
                exact Or.inr (Or.inr ⟨allHits, hall, rfl, rfl⟩)
            · simp at h
              obtain ⟨h1, h2, h3⟩ := h
              subst_vars
              exact Or.inl ⟨rfl, rfl⟩
          · simp at h
            obtain ⟨h1, h2, h3⟩ := h
            subst_vars
            exact Or.inr (Or.inl ⟨recent, hsince, rfl, rfl⟩)
      · split at h
        · simp at h
        · rename_i allHits hall
          simp at h
          obtain ⟨h1, h2, h3⟩ := h
          subst_vars
          exact Or.inr (Or.inr ⟨allHits, hall, rfl, rfl⟩)

theorem detect_new_none_hits (c : Client) (ff : Bool)
    {hits : List Hit} {ids : Finset String} {cnt : Nat}
    (h : (detect_new c none ff).2 = .ok (hits, ids, cnt)) : hits = [] := by
  unfold detect_new at h
  rcases hs : seed c with ⟨tr, res⟩
  rw [hs] at h
  cases res with
  | error e => simp at h
  | ok r =>
    rcases r with ⟨i, t⟩
    simp at h
    obtain ⟨h1, h2, h3⟩ := h
    subst_vars
    rfl

theorem detect_new_not_known (c : Client) (st : KnownState) (ff : Bool)
    {hits : List Hit} {ids : Finset String} {cnt : Nat}
    (h : (detect_new c (some st) ff).2 = .ok (hits, ids, cnt)) :
    ∀ x ∈ hits, hit_id x ∉ st.known_ids := by
  have h' : (detect_new_known c st ff).2 = .ok (hits, ids, cnt) := h
  rcases detect_new_known_ok c st ff h' with ⟨h1, _⟩ | ⟨recent, _, h1, _⟩ | ⟨allHits, _, h1, _⟩
  · simp [h1]
  · subst h1
    intro x hx
    simp only [windowHits, List.mem_filter, decide_eq_true_eq] at hx
    exact hx.2
  · subst h1
    intro x hx
    simp only [fallbackHits, List.mem_filter, decide_eq_true_eq, Finset.mem_sdiff] at hx
    exact hx.2.2

theorem detect_new_sub_ids (c : Client) (state : Option KnownState) (ff : Bool)
    {hits : List Hit} {ids : Finset String} {cnt : Nat}
    (h : (detect_new c state ff).2 = .ok (hits, ids, cnt)) :
    ∀ x ∈ hits, hit_id x ∈ ids := by
  cases state with
  | none => simp [detect_new_none_hits c ff h]
  | some st =>
    have h' : (detect_new_known c st ff).2 = .ok (hits, ids, cnt) := h
    rcases detect_new_known_ok c st ff h' with ⟨h1, _⟩ | ⟨recent, _, h1, h2⟩ |
      ⟨allHits, _, h1, h2⟩
    · simp [h1]
    · subst h2
      intro x hx
      exact Finset.mem_union_right _ (List.mem_toFinset.mpr (List.mem_map_of_mem _ hx))
    · subst h1 h2
      intro x hx
      simp only [fallbackHits, List.mem_filter, decide_eq_true_eq, Finset.mem_sdiff] at hx
      exact Finset.mem_union_right _ hx.2.1

theorem fallbackHits_ids (allHits : List Hit) (known : Finset String) :
    ((fallbackHits allHits known).map hit_id).toFinset = allIdsOf allHits \ known := by
  ext x
  constructor
  · intro hx
    simp only [List.mem_toFinset, List.mem_map] at hx
    rcases hx with ⟨h, hmem, rfl⟩
    simp only [fallbackHits, List.mem_filter, decide_eq_true_eq] at hmem
    exact hmem.2
  · intro hx
    have hx' := Finset.mem_sdiff.mp hx
    have hx1 : x ∈ (allHits.map hit_id).toFinset := hx'.1
    rcases List.mem_map.mp (List.mem_toFinset.mp hx1) with ⟨h, hmem, rfl⟩
    simp only [List.mem_toFinset, List.mem_map]
    refine ⟨h, ?_, rfl⟩
    simp only [fallbackHits, List.mem_filter, decide_eq_true_eq]
    exact ⟨hmem, hx⟩

theorem drain_eq (p : List Hit) (deliver : Hit → Bool) (hne : p ≠ []) :
    drain true false (some p) deliver =
      (attemptTrace .drain deliver p ++
        [if (send_all_webhooks deliver p).2 = [] then Event.clearPendingEv
         else Event.savePendingEv (send_all_webhooks deliver p).2],
       if (send_all_webhooks deliver p).2 = [] then none
       else some ((send_all_webhooks deliver p).2)) := by
  simp only [drain, if_pos (And.intro rfl rfl), if_neg hne]
  by_cases hf : (send_all_webhooks deliver p).2 = []
  · simp [hf]
  · simp [hf]

theorem main_run_trace_shape (dry seedF ff webhook : Bool) (pending : Option (List Hit))
    (state : Option KnownState) (c : Client) (deliver : Hit → Bool) (now : Int) :
    ∃ rest, (main_run dry seedF ff webhook pending state c deliver now).trace =
      (drain webhook dry pending deliver).1 ++ rest := by
  unfold main_run
  cases seedF
  · rcases hdn : detect_new c state ff with ⟨tr, res⟩
    simp only [Bool.false_eq_true, if_false, hdn]
    cases res with
    | error e => exact ⟨tr, rfl⟩
    | ok r =>
      rcases r with ⟨newHits, ids, cnt⟩
      by_cases hnh : newHits = []
      · simp only [hnh, if_pos rfl]
        exact ⟨tr ++ [Event.saveStateEv ids cnt], by simp⟩
      · simp only [if_neg hnh]
        by_cases hdry : dry
        · simp only [hdry, if_true]
          exact ⟨tr ++ [Event.saveStateEv ids cnt], by simp⟩
        · simp only [hdry, if_false]
          by_cases hwh : webhook = false
          · simp only [hwh, if_pos rfl]
            exact ⟨tr ++ [Event.saveStateEv ids cnt], by simp⟩
          · simp only [if_neg hwh]
            by_cases hfail : (send_all_webhooks deliver newHits).2 = []
            · simp only [hfail, if_pos rfl]
              exact ⟨tr ++ [Event.saveStateEv ids cnt] ++
                attemptTrace .fresh deliver newHits ++ [Event.clearPendingEv], by simp⟩
            · simp only [if_neg hfail]
              exact ⟨tr ++ [Event.saveStateEv ids cnt] ++
                attemptTrace .fresh deliver newHits ++
                [Event.savePendingEv ((send_all_webhooks deliver newHits).2)], by simp⟩
  · rcases hs : seed c with ⟨tr, res⟩
    simp only [if_true, hs]
    cases res with
    | error e => exact ⟨tr, rfl⟩
    | ok r =>
      rcases r with ⟨ids, total⟩
      exact ⟨tr, rfl⟩

theorem main_run_pending_empty (dry seedF ff webhook : Bool) (pending : Option (List Hit))
    (state : Option KnownState) (c : Client) (deliver : Hit → Bool) (now : Int) :
    (main_run dry seedF ff webhook pending state c deliver now).newHits = [] →
      (main_run dry seedF ff webhook pending state c deliver now).pendingAfter =
        (drain webhook dry pending deliver).2 := by
  unfold main_run
  cases seedF
  · rcases hdn : detect_new c state ff with ⟨tr, res⟩
    simp only [Bool.false_eq_true, if_false, hdn]
    cases res with
    | error e => exact fun _ => rfl
    | ok r =>
      rcases r with ⟨newHits, ids, cnt⟩
      by_cases hnh : newHits = []
      · simp only [hnh, if_pos rfl]
        exact fun _ => rfl
      · simp only [if_neg hnh]
        by_cases hdry : dry
        · simp only [hdry, if_true]
          exact fun h => absurd h hnh
        · simp only [hdry, if_false]
          by_cases hwh : webhook = false
          · simp only [hwh, if_pos rfl]
            exact fun h => absurd h hnh
          · simp only [if_neg hwh]
            by_cases hfail : (send_all_webhooks deliver newHits).2 = []
            · simp only [hfail, if_pos rfl]
              exact fun h => absurd h hnh
            · simp only [if_neg hfail]
              exact fun h => absurd h hnh
  · rcases hs : seed c with ⟨tr, res⟩
    simp only [if_true, hs]
    cases res with
    | error e => exact fun _ => rfl
    | ok r =>
      rcases r with ⟨ids, total⟩
      exact fun _ => rfl

theorem main_run_pending_fresh (dry seedF ff webhook : Bool) (pending : Option (List Hit))
    (state : Option KnownState) (c : Client) (deliver : Hit → Bool) (now : Int)
    (hw : webhook = true) (hd : dry = false) :
    (main_run dry seedF ff webhook pending state c deliver now).newHits ≠ [] →
      (main_run dry seedF ff webhook pending state c deliver now).pendingAfter =
        (if (send_all_webhooks deliver
              (main_run dry seedF ff webhook pending state c deliver now).newHits).2 = []
         then none
         else some ((send_all_webhooks deliver
              (main_run dry seedF ff webhook pending state c deliver now).newHits).2)) := by
  subst hw hd
  unfold main_run
  cases seedF
  · rcases hdn : detect_new c state ff with ⟨tr, res⟩
    simp only [Bool.false_eq_true, if_false, hdn]
    cases res with
    | error e => exact fun h => absurd rfl h
    | ok r =>
      rcases r with ⟨newHits, ids, cnt⟩
      by_cases hnh : newHits = []
      · simp only [hnh, if_pos rfl]
        exact fun h => absurd rfl h
      · simp only [if_neg hnh, Bool.false_eq_true, if_false]
        by_cases hfail : (send_all_webhooks deliver newHits).2 = []
        · simp only [hfail, if_pos rfl]
          intro _
          simp [hfail]
        · simp only [if_neg hfail]
          intro _
          simp [hfail]
  · rcases hs : seed c with ⟨tr, res⟩
    simp only [if_true, hs]
    cases res with
    | error e => exact fun h => absurd rfl h
    | ok r =>
      rcases r with ⟨ids, total⟩
      exact fun h => absurd rfl h

theorem noFresh_seed (c : Client) : noFresh (seed c).1 = true := by
  unfold seed
  split
  · rfl
  · split
    · rfl
    · rfl

theorem noFresh_detect_new_known (c : Client) (st : KnownState) (ff : Bool) :
    noFresh (detect_new_known c st ff).1 = true := by
  unfold detect_new_known
  split
  · rfl
  · split
    · rfl
    · split
      · split
        · rfl
        · split
          · split
            · split
              · rfl
              · rfl
            · rfl
          · rfl
      · split
        · rfl
        · rfl

theorem noFresh_detect_new (c : Client) (state : Option KnownState) (ff : Bool) :
    noFresh (detect_new c state ff).1 = true := by
  cases state with
  | none =>
    unfold detect_new
    rcases hs : seed c with ⟨tr, res⟩
    have htr : noFresh tr = true := by
      have := noFresh_seed c
      rw [hs] at this
      exact this
    cases res with
    | error e => exact htr
    | ok r =>
      rcases r with ⟨ids, total⟩
      exact htr
  | some st => exact noFresh_detect_new_known c st ff

theorem noFresh_drain (webhook dry : Bool) (pending : Option (List Hit))
    (deliver : Hit → Bool) :
    noFresh (drain webhook dry pending deliver).1 = true := by
  unfold drain
  split
  · split
    · rfl
    · split
      · rfl
      · split
        · rw [noFresh_append, noFresh_attemptTrace_drain]
          rfl
        · rw [noFresh_append, noFresh_attemptTrace_drain]
          rfl
  · rfl

theorem savedBeforeFresh_save_mid (t d tr rest : Trace) (ids : Finset String) (cnt : Nat)
    (hshape : t = (d ++ tr) ++ Event.saveStateEv ids cnt :: rest)
    (hd : noFresh d = true) (htr : noFresh tr = true) :
    savedBeforeFresh t = true := by
  rw [hshape]
  refine savedBeforeFresh_append_save ids cnt rest ?_
  rw [noFresh_append, hd, htr]
  rfl

theorem main_run_saved_before_fresh (dry seedF ff webhook : Bool)
    (pending : Option (List Hit)) (state : Option KnownState) (c : Client)
    (deliver : Hit → Bool) (now : Int) :
    savedBeforeFresh (main_run dry seedF ff webhook pending state c deliver now).trace = true := by
  have hdnf : noFresh (drain webhook dry pending deliver).1 = true :=
    noFresh_drain webhook dry pending deliver
  unfold main_run
  cases seedF
  · rcases hdn : detect_new c state ff with ⟨tr, res⟩
    have htr : noFresh tr = true := by
      have := noFresh_detect_new c state ff
      rw [hdn] at this
      exact this
    simp only [Bool.false_eq_true, if_false, hdn]
    cases res with
    | error e =>
      exact savedBeforeFresh_of_noFresh (by rw [noFresh_append, hdnf, htr]; rfl)
    | ok r =>
      rcases r with ⟨newHits, ids, cnt⟩
      have hbase : noFresh ((drain webhook dry pending deliver).1 ++ tr) = true := by
        rw [noFresh_append, hdnf, htr]
        rfl
      simp only []
      by_cases hnh : newHits = []
      · rw [if_pos hnh]
        exact savedBeforeFresh_save_mid _ _ _ [] ids cnt (by simp) hdnf htr
      · rw [if_neg hnh]
        by_cases hdry : dry = true
        · rw [if_pos hdry]
          exact savedBeforeFresh_save_mid _ _ _ [] ids cnt (by simp) hdnf htr
        · rw [if_neg hdry]
          by_cases hwh : webhook = false
          · rw [if_pos hwh]
            exact savedBeforeFresh_save_mid _ _ _ [] ids cnt (by simp) hdnf htr
          · rw [if_neg hwh]
            by_cases hfail : (send_all_webhooks deliver newHits).2 = []
            · rw [if_pos hfail]
              exact savedBeforeFresh_save_mid _ _ _
                (attemptTrace .fresh deliver newHits ++ [Event.clearPendingEv])
                ids cnt (by simp) hdnf htr
            · rw [if_neg hfail]
              exact savedBeforeFresh_save_mid _ _ _
                (attemptTrace .fresh deliver newHits ++
                  [Event.savePendingEv ((send_all_webhooks deliver newHits).2)])
                ids cnt (by simp) hdnf htr
  · rcases hs : seed c with ⟨tr, res⟩
    have htr : noFresh tr = true := by
      have := noFresh_seed c
      rw [hs] at this
      exact this
    simp only [if_true, hs]
    cases res with
    | error e =>
      exact savedBeforeFresh_of_noFresh (by rw [noFresh_append, hdnf, htr]; rfl)
    | ok r =>
      rcases r with ⟨ids, total⟩
      exact savedBeforeFresh_of_noFresh (by rw [noFresh_append, hdnf, htr]; rfl)

theorem main_run_state_newHits (dry seedF ff webhook : Bool)
    (pending : Option (List Hit)) (state : Option KnownState) (c : Client)
    (deliver : Hit → Bool) (now : Int) (st' : KnownState)
    (hst : (main_run dry seedF ff webhook pending state c deliver now).stateAfter = some st') :
    ∀ h ∈ (main_run dry seedF ff webhook pending state c deliver now).newHits,
      hit_id h ∈ st'.known_ids := by
  unfold main_run at hst ⊢
  cases seedF
  · rcases hdn : detect_new c state ff with ⟨tr, res⟩
    have hdn2 : (detect_new c state ff).2 = res := by rw [hdn]
    simp only [Bool.false_eq_true, if_false, hdn] at hst ⊢
    cases res with
    | error e => intro h hh; exact absurd hh (List.not_mem_nil h)
    | ok r =>
      rcases r with ⟨newHits, ids, cnt⟩
      have hsub : ∀ x ∈ newHits, hit_id x ∈ ids := detect_new_sub_ids c state ff hdn2
      by_cases hnh : newHits = []
      · simp only [hnh, if_pos rfl]
        intro h hh
        exact absurd hh (List.not_mem_nil h)
      · simp only [if_neg hnh] at hst ⊢
        by_cases hdry : dry
        · simp only [hdry, if_true] at hst ⊢
          cases Option.some.inj hst
          exact hsub
        · simp only [hdry, if_false] at hst ⊢
          by_cases hwh : webhook = false
          · simp only [hwh, if_pos rfl] at hst ⊢
            cases Option.some.inj hst
            exact hsub
          · simp only [if_neg hwh] at hst ⊢
            by_cases hfail : (send_all_webhooks deliver newHits).2 = []
            · simp only [hfail, if_pos rfl] at hst ⊢
              cases Option.some.inj hst
              exact hsub
            · simp only [if_neg hfail] at hst ⊢
              cases Option.some.inj hst
              exact hsub
  · rcases hs : seed c with ⟨tr, res⟩
    simp only [if_true, hs] at hst ⊢
    cases res with
    | error e => intro h hh; exact absurd hh (List.not_mem_nil h)
    | ok r =>
      rcases r with ⟨ids, total⟩
      intro h hh
      exact absurd hh (List.not_mem_nil h)

theorem detect_new_fallback (c : Client) (st : KnownState) (ff : Bool) (n : Nat)
    (allHits : List Hit)
    (hc : c.fetchCount = .ok n) (ha : c.fetchAll = .ok allHits)
    (hne : ¬ (n = st.total_count ∧ ff = false))
    (hentry : ff = true ∨ ¬ 0 < st.last_run_timestamp ∨
      (∃ recent, c.fetchSince st.last_run_timestamp = .ok recent ∧
        windowHits recent st.known_ids = [] ∧ st.total_count < n)) :
    (detect_new c (some st) ff).2 =
      .ok (fallbackHits allHits st.known_ids, st.known_ids ∪ allIdsOf allHits, n) := by
  have hred : detect_new c (some st) ff = detect_new_known c st ff := rfl
  rw [hred]
  unfold detect_new_known
  rw [hc]
  simp only []
  rw [if_neg hne]
  by_cases hcond : ff = false ∧ 0 < st.last_run_timestamp
  · rw [if_pos hcond]
    rcases hentry with hff | hts | ⟨recent, hsince, hwempty, hlt⟩
    · rw [hff] at hcond
      exact absurd hcond.1 (by simp)
    · exact absurd hcond.2 hts
    · rw [hsince]
      simp only []
      rw [if_pos hwempty, if_pos hlt, ha]
  · rw [if_neg hcond, ha]

/-! Claim theorems. -/

/-- C2 (code evaluated at the failing input): on a first run where the
full fetch returns one hit with id `"a"` while `fetchCount()` returns 5,
`detect_new` returns no new entities and the full fetched id set as
claimed, but its `currentCount` is 1 — the number of unique fetched
ids — not the `fetchCount()` result 5, and the state persisted at the
end of `main` stores `total_count = 1`. This contradicts `detect_new`'s
own contract that `current_count` is the latest `nbHits` from the
catalog, and discards the count that `seed` itself had just fetched and
saved. -/
theorem c2_seed_count_eval :
    (detect_new c2client none false).2 = .ok ([], {"a"}, 1) ∧
    c2client.fetchCount = .ok 5 ∧
    (main_run false false false true none none c2client deliverAll 7).stateAfter =
      some ⟨{"a"}, 1, 7⟩ := by
  decide

/-- C3 (confirmed): with persisted state, if `fetchCount()` equals the
stored total and `forceFull` is false, `detect_new` returns the empty
new-entity list, the stored known-id set unchanged, and the new count,
and its trace is exactly the one count call — `fetchSince` and
`fetchAllPartitioned` are never consulted, so the result is independent
of them. -/
theorem c3_unchanged_idempotent (c : Client) (st : KnownState)
    (h : c.fetchCount = .ok st.total_count) :
    detect_new c (some st) false =
      ([Event.callCount], .ok ([], st.known_ids, st.total_count)) := by
  simp [detect_new, detect_new_known, h]

/-- Witness for C3 at a concrete client and state whose window and full
fetches are non-empty: the unchanged count alone decides the result. -/
theorem c3_unchanged_idempotent_witness :
    detect_new c3client (some st3) false =
      ([Event.callCount], .ok ([], {"a", "b"}, 7)) := by
  rw [c3_unchanged_idempotent c3client st3 rfl]
  decide

/-- C4 (confirmed): with persisted state, no id already contained in the
stored known-id set ever appears among the ids of the new entities
returned by `detect_new`, on the window path and the full-fetch path
alike. -/
theorem c4_no_duplicate_notification (c : Client) (st : KnownState) (ff : Bool)
    {hits : List Hit} {ids : Finset String} {cnt : Nat}
    (h : (detect_new c (some st) ff).2 = .ok (hits, ids, cnt)) :
    ∀ x ∈ hits, hit_id x ∉ st.known_ids :=
  detect_new_not_known c st ff h

/-- Witness for C4: a window fetch returns the already-known `hitA` and
the new `hitB`; the returned id `"b"` is not in the stored known set. -/
theorem c4_no_duplicate_notification_witness : hit_id hitB ∉ st4.known_ids :=
  c4_no_duplicate_notification c4client st4 false
    (by decide : (detect_new c4client (some st4) false).2 = .ok ([hitB], {"a", "b"}, 2))
    hitB (by decide)

/-- C10 counterexample: `save_state` does not use the
write-to-temp-then-replace strategy — its filesystem operations at a
concrete input contain no rename onto the state path at all; the dump is
written directly to the final path. -/
theorem c10_counterexample :
    ¬ writeTempThenReplace (save_state_ops "data" ["b", "a"] 2 100) (statePath "data") := by
  rintro ⟨pre, tmp, content, hne, h⟩
  have h2 := congrArg List.reverse h
  simp [save_state_ops, List.reverse_append] at h2

/-- C10 amended: `save_state` replaces the whole persisted record with a
single direct write to the state path (after creating the parent
directory) — not with a temp-file-then-rename sequence, so a crash
mid-write can leave a partial state file. The written record does
capture the current wall-clock instant as both `lastRunAt` and
`lastRunTimestamp`, stores the given total, the given ids (sorted), and
the schema version. -/
theorem c10_save_amended (dataDir : String) (known_ids : List String)
    (total : Nat) (now : Int) :
    (∃ content : StateRecord,
      save_state_ops dataDir known_ids total now =
        [FsOp.mkdirParents dataDir, FsOp.write (statePath dataDir) content] ∧
      content.last_run_at = now ∧ content.last_run_timestamp = now ∧
      content.total_count = total ∧ content.known_ids.toFinset = known_ids.toFinset ∧
      content.version = 1) ∧
    ¬ writeTempThenReplace (save_state_ops dataDir known_ids total now) (statePath dataDir) := by
  constructor
  · refine ⟨_, rfl, rfl, rfl, rfl, ?_, rfl⟩
    exact List.toFinset_eq_of_perm _ _
      (List.mergeSort_perm known_ids (fun a b => decide (a ≤ b)))
  · rintro ⟨pre, tmp, content, hne, h⟩
    have h2 := congrArg List.reverse h
    simp [save_state_ops, List.reverse_append] at h2

/-- C5 (confirmed): on the authoritative fallback path — entered when
the window shortcut is skipped (`forceFull`, or a non-positive
watermark) or came back empty while the count increased — `detect_new`
returns exactly the fetched records whose id lies in
`allIds − knownIds`, with updated known ids `knownIds ∪ allIds`; the id
set of the returned new entities is exactly `allIds − knownIds`. -/
theorem c5_fallback_exact (c : Client) (st : KnownState) (ff : Bool) (n : Nat)
    (allHits : List Hit)
    (hc : c.fetchCount = .ok n) (ha : c.fetchAll = .ok allHits)
    (hne : ¬ (n = st.total_count ∧ ff = false))
    (hentry : ff = true ∨ ¬ 0 < st.last_run_timestamp ∨
      (∃ recent, c.fetchSince st.last_run_timestamp = .ok recent ∧
        windowHits recent st.known_ids = [] ∧ st.total_count < n)) :
    (detect_new c (some st) ff).2 =
      .ok (fallbackHits allHits st.known_ids, st.known_ids ∪ allIdsOf allHits, n) ∧
    ((fallbackHits allHits st.known_ids).map hit_id).toFinset =
      allIdsOf allHits \ st.known_ids :=
  ⟨detect_new_fallback c st ff n allHits hc ha hne hentry,
   fallbackHits_ids allHits st.known_ids⟩

/-- Witness for C5: `knownIds = {A,B}`, full fetch returning ids
`{A,B,C,D}` yields new entities `[hC, hD]` with ids `{C,D}`, and updated
known ids `{A,B,C,D}`. -/
theorem c5_fallback_exact_witness :
    (detect_new cABCD (some stAB) true).2 =
      .ok ([hC, hD], {"A", "B", "C", "D"}, 4) ∧
    (([hC, hD] : List Hit).map hit_id).toFinset = ({"C", "D"} : Finset String) := by
  have h := c5_fallback_exact cABCD stAB true 4 [hA, hB, hC, hD] rfl rfl
    (by decide) (Or.inl rfl)
  constructor
  · rw [h.1]
    decide
  · decide

/-- C6 counterexample: a window query returning a single record with no
derivable id (neither `objectID` nor `id`) against an empty known set
yields that record in `newEntities` and adds the empty id `""` to the
returned known-id set — id-less records are not filtered on the
window-query path. -/
theorem c6_counterexample : ¬ noIdlessSurfaced c6client (some st6) false := by
  decide

/-- C6 amended: records with no derivable id are excluded from the
baseline only on the seeding path (`seed` filters out falsy ids before
saving); on the window and full-fetch paths such records are treated as
carrying the id `""` and are excluded from `newEntities` only when `""`
is already in the stored known ids. -/
theorem c6_idless_amended :
    (∀ hits : List Hit, "" ∉ seedIds hits) ∧
    (∀ (c : Client) (st : KnownState) (ff : Bool) (hits : List Hit)
      (ids : Finset String) (cnt : Nat),
      (detect_new c (some st) ff).2 = .ok (hits, ids, cnt) →
      "" ∈ st.known_ids → ∀ h ∈ hits, hit_id h ≠ "") := by
  constructor
  · intro hits
    simp [seedIds]
  · intro c st ff hits ids cnt h hempty x hx hxe
    exact detect_new_not_known c st ff h x hx (hxe ▸ hempty)

/-- Witness for C6 amended: seeding over a fetch containing an id-less
record keeps `""` out of the baseline, and a window run whose known set
already holds `""` filters the id-less record, surfacing only `hX`. -/
theorem c6_idless_amended_witness :
    ("" ∉ seedIds [hNoId, hX]) ∧ hit_id hX ≠ "" :=
  ⟨c6_idless_amended.1 [hNoId, hX],
   c6_idless_amended.2 c6wclient st6w false [hX] {"", "x"} 1 (by decide) (by decide)
     hX (by decide)⟩

/-- C7 counterexample: a full fetch returning two distinct records that
share the id `"x"` against an empty known set surfaces both records in
`newEntities` — duplicate ids are not collapsed to one logical entity in
the returned new-entity list. -/
theorem c7_counterexample : ¬ atMostOnePerId cdup (some st0) false := by
  decide

/-- C7 amended: duplicate ids within one fetch collapse to a single
element only in the returned known-id set (and in the seeded baseline);
`newEntities` keeps every record occurrence of a new id — on the
fallback path the returned list contains each record of a not-yet-known
id exactly as many times as the fetch returned it, so one run can
surface the same id more than once. -/
theorem c7_duplicates_amended (c : Client) (st : KnownState) (n : Nat)
    (allHits : List Hit) (h : Hit)
    (hc : c.fetchCount = .ok n) (ha : c.fetchAll = .ok allHits)
    (hnew : hit_id h ∉ st.known_ids) :
    (detect_new c (some st) true).2 =
      .ok (fallbackHits allHits st.known_ids, st.known_ids ∪ allIdsOf allHits, n) ∧
    (fallbackHits allHits st.known_ids).count h = allHits.count h := by
  constructor
  · exact detect_new_fallback c st true n allHits hc ha
      (fun hcon => by simpa using hcon.2) (Or.inl rfl)
  · by_cases hmem : h ∈ allHits
    · have hp : (fun x => decide (hit_id x ∈ allIdsOf allHits \ st.known_ids)) h = true := by
        simp only [decide_eq_true_eq, Finset.mem_sdiff, allIdsOf, List.mem_toFinset]
        exact ⟨List.mem_map_of_mem hit_id hmem, hnew⟩
      exact List.count_filter hp
    · have h1 : allHits.count h = 0 := List.count_eq_zero.mpr hmem
      have h2 : (fallbackHits allHits st.known_ids).count h = 0 :=
        List.count_eq_zero.mpr (fun hc2 => hmem (List.mem_of_mem_filter hc2))
      rw [h1, h2]

/-- Witness for C7 amended: a full fetch returning the record `hX`
twice surfaces it twice in `newEntities`. -/
theorem c7_duplicates_amended_witness :
    (detect_new cdup2 (some st0) true).2 = .ok ([hX, hX], {"x"}, 2) ∧
    ([hX, hX] : List Hit).count hX = 2 := by
  have h := c7_duplicates_amended cdup2 st0 2 [hX, hX] hX rfl rfl (by decide)
  constructor
  · rw [h.1]
    decide
  · rw [← h.2]
    decide

/-- C1 counterexample: a run that drains a still-failing pending item
`pHit` (its delivery fails, so the drain persists `[pHit]` again) and
then successfully delivers a newly detected entity ends with
`clear_pending`, deleting the pending file — the still-failing `pHit`
is silently dropped even though it was never delivered. -/
theorem c1_counterexample :
    ¬ claimC1 false false false true [pHit] (some st0) c1client c1deliver 0 := by
  decide

/-- C1 amended: in a run with a webhook configured and not in dry-run
mode that starts with a non-empty pending batch, every pending item's
delivery is attempted before any detection call, and immediately after
the drain the pending file holds exactly the still-failing subset
(deleted when all succeeded). That is also the end-of-run pending state
whenever the run surfaces no new entities; but when the run delivers
fresh entities, the final pending file is the failing subset of the
fresh entities only — still-failing drained items are overwritten. -/
theorem c1_pending_drain (dry seedF ff webhook : Bool)
    (state : Option KnownState) (c : Client) (deliver : Hit → Bool) (now : Int)
    (p : List Hit) (hw : webhook = true) (hd : dry = false) (hne : p ≠ []) :
    (∀ h ∈ p, Event.attempt .drain h (deliver h) ∈
      (main_run dry seedF ff webhook (some p) state c deliver now).trace.takeWhile
        (fun e => !(isDetectEv e))) ∧
    ((if (send_all_webhooks deliver p).2 = [] then Event.clearPendingEv
      else Event.savePendingEv ((send_all_webhooks deliver p).2)) ∈
      (main_run dry seedF ff webhook (some p) state c deliver now).trace.takeWhile
        (fun e => !(isDetectEv e))) ∧
    ((main_run dry seedF ff webhook (some p) state c deliver now).newHits = [] →
      (main_run dry seedF ff webhook (some p) state c deliver now).pendingAfter =
        (if (send_all_webhooks deliver p).2 = [] then none
         else some ((send_all_webhooks deliver p).2))) ∧
    ((main_run dry seedF ff webhook (some p) state c deliver now).newHits ≠ [] →
      (main_run dry seedF ff webhook (some p) state c deliver now).pendingAfter =
        (if (send_all_webhooks deliver
            ((main_run dry seedF ff webhook (some p) state c deliver now).newHits)).2 = []
         then none
         else some ((send_all_webhooks deliver
            ((main_run dry seedF ff webhook (some p) state c deliver now).newHits)).2))) := by
  subst hw hd
  have hdr := drain_eq p deliver hne
  have hd1 : (drain true false (some p) deliver).1 =
      attemptTrace .drain deliver p ++
        [if (send_all_webhooks deliver p).2 = [] then Event.clearPendingEv
         else Event.savePendingEv ((send_all_webhooks deliver p).2)] := by rw [hdr]
  have hd2 : (drain true false (some p) deliver).2 =
      (if (send_all_webhooks deliver p).2 = [] then none
       else some ((send_all_webhooks deliver p).2)) := by rw [hdr]
  have hpre : ∀ x ∈ (drain true false (some p) deliver).1, (!(isDetectEv x)) = true := by
    rw [hd1]
    intro x hx
    rcases List.mem_append.mp hx with hx | hx
    · exact detects_attemptTrace _ _ _ x hx
    · rcases List.mem_singleton.mp hx with rfl
      by_cases hf : (send_all_webhooks deliver p).2 = []
      · rw [if_pos hf]
        rfl
      · rw [if_neg hf]
        rfl
  obtain ⟨rest, hshape⟩ := main_run_trace_shape false seedF ff true (some p) state c deliver now
  refine ⟨?_, ?_, ?_, ?_⟩
  · intro h hh
    rw [hshape]
    exact mem_takeWhile_append rest hpre
      (by rw [hd1]; exact List.mem_append_left _ (List.mem_map_of_mem _ hh))
  · rw [hshape]
    exact mem_takeWhile_append rest hpre
      (by rw [hd1]; exact List.mem_append_right _ (List.mem_singleton.mpr rfl))
  · intro hnil
    rw [main_run_pending_empty false seedF ff true (some p) state c deliver now hnil, hd2]
  · intro hnn
    exact main_run_pending_fresh false seedF ff true (some p) state c deliver now rfl rfl hnn

/-- Witness for C1 amended: a run whose pending item `pHit` still fails
and whose detection finds nothing re-persists exactly `[pHit]`, and the
`save_pending` replacement happens before any detection call. -/
theorem c1_pending_drain_witness :
    (main_run false false false true (some [pHit]) (some st5) c8client
        deliverNone 0).pendingAfter = some [pHit] ∧
    Event.savePendingEv [pHit] ∈
      (main_run false false false true (some [pHit]) (some st5) c8client
          deliverNone 0).trace.takeWhile (fun e => !(isDetectEv e)) := by
  have h := c1_pending_drain false false false true (some st5) c8client deliverNone 0
    [pHit] rfl rfl (by decide)
  refine ⟨?_, ?_⟩
  · have h3 := h.2.2.1 (by decide)
    rw [h3]
    decide
  · have h2 := h.2.1
    have he : (if (send_all_webhooks deliverNone [pHit]).2 = [] then Event.clearPendingEv
        else Event.savePendingEv ((send_all_webhooks deliverNone [pHit]).2)) =
        Event.savePendingEv [pHit] := by decide
    rw [he] at h2
    exact h2

/-- C8 counterexample: a run whose pending retry still fails (the item
is persisted again as pending) but whose detection finds nothing exits
with code 0, although the claim requires exit code 1 whenever a
delivery retried this run is still failing afterwards. -/
theorem c8_counterexample :
    ¬ claimC8 false false false true (some [pHit]) (some st5) c8client deliverNone 0 := by
  decide

/-- C8 amended: the exit code is 0 or 1; it is 1 exactly when the
detection phase raises a transport error or the delivery of this run's
fresh new entities has failures (which are then persisted as the pending
batch). Failures confined to the pending-drain retry do not make the
exit code nonzero. -/
theorem c8_exit_amended (dry seedF ff webhook : Bool) (pending : Option (List Hit))
    (state : Option KnownState) (c : Client) (deliver : Hit → Bool) (now : Int) :
    ((main_run dry seedF ff webhook pending state c deliver now).exit = 1 ↔
      (runDetectErred seedF ff c state = true ∨
       freshFailed dry seedF ff webhook c state deliver ≠ [])) ∧
    (freshFailed dry seedF ff webhook c state deliver ≠ [] →
      (main_run dry seedF ff webhook pending state c deliver now).pendingAfter =
        some (freshFailed dry seedF ff webhook c state deliver)) ∧
    ((main_run dry seedF ff webhook pending state c deliver now).exit = 0 ∨
     (main_run dry seedF ff webhook pending state c deliver now).exit = 1) := by
  unfold main_run runDetectErred freshFailed
  cases seedF
  · rcases hdn : detect_new c state ff with ⟨tr, res⟩
    have hdn2 : (detect_new c state ff).2 = res := by rw [hdn]
    simp only [Bool.false_eq_true, if_false, hdn, hdn2]
    cases res with
    | error e => simp
    | ok r =>
      rcases r with ⟨newHits, ids, cnt⟩
      simp only []
      by_cases hnh : newHits = []
      · rw [if_pos hnh, if_pos hnh]
        simp
      · rw [if_neg hnh, if_neg hnh]
        by_cases hdry : dry = true
        · rw [if_pos hdry, if_pos hdry]
          simp
        · rw [if_neg hdry, if_neg hdry]
          by_cases hwh : webhook = false
          · rw [if_pos hwh, if_pos hwh]
            simp
          · rw [if_neg hwh, if_neg hwh]
            by_cases hfail : (send_all_webhooks deliver newHits).2 = []
            · rw [if_pos hfail]
              simp [hfail]
            · rw [if_neg hfail]
              simp [hfail]
  · rcases hs : seed c with ⟨tr, res⟩
    have hs2 : (seed c).2 = res := by rw [hs]
    simp only [if_true, hs, hs2]
    cases res with
    | error e => simp
    | ok r =>
      rcases r with ⟨ids, total⟩
      simp

/-- Witness for C8 amended: a run detecting one new entity whose
delivery fails exits 1 and persists that entity as pending. -/
theorem c8_exit_amended_witness :
    (main_run false false false true none (some st0) c1client deliverNone 11).exit = 1 ∧
    (main_run false false false true none (some st0) c1client
        deliverNone 11).pendingAfter = some [nHit] := by
  have h := c8_exit_amended false false false true none (some st0) c1client deliverNone 11
  have hff : freshFailed false false false true c1client (some st0) deliverNone ≠ [] := by
    decide
  exact ⟨h.1.mpr (Or.inr hff), (h.2.1 hff).trans (by decide)⟩

/-- C9 (confirmed): in every run, scanning the trace from the start, a
state save occurs before the first delivery attempt of the run's fresh
new entities; moreover, every fresh new entity's id is contained in the
known ids of the state persisted at the end of the run, and `detect_new`
started from any persisted state never returns a hit whose id is already
in that state's known ids — so a crash after the save and before (or
during) delivery cannot make a later run re-detect those ids. -/
theorem c9_save_before_delivery (dry seedF ff webhook : Bool)
    (pending : Option (List Hit)) (state : Option KnownState) (c : Client)
    (deliver : Hit → Bool) (now : Int) :
    savedBeforeFresh (main_run dry seedF ff webhook pending state c deliver now).trace = true ∧
    (∀ st', (main_run dry seedF ff webhook pending state c deliver now).stateAfter = some st' →
      (∀ h ∈ (main_run dry seedF ff webhook pending state c deliver now).newHits,
        hit_id h ∈ st'.known_ids) ∧
      (∀ (c' : Client) (ff' : Bool) (hits' : List Hit) (ids' : Finset String) (cnt' : Nat),
        (detect_new c' (some st') ff').2 = .ok (hits', ids', cnt') →
        ∀ x ∈ hits', hit_id x ∉ st'.known_ids)) :=
  ⟨main_run_saved_before_fresh dry seedF ff webhook pending state c deliver now,
   fun st' hst =>
     ⟨main_run_state_newHits dry seedF ff webhook pending state c deliver now st' hst,
      fun c' ff' _ _ _ h => detect_new_not_known c' st' ff' h⟩⟩

/-- Witness for C9: a run detecting and delivering `nHit` saves state
before the fresh delivery attempt, and the saved known ids contain
`"n"`. -/
theorem c9_save_before_delivery_witness :
    savedBeforeFresh
      (main_run false false false true none (some st0) c1client deliverAll 3).trace = true ∧
    hit_id nHit ∈ ({"n"} : Finset String) := by
  have h := c9_save_before_delivery false false false true none (some st0) c1client deliverAll 3
  exact ⟨h.1, (h.2 ⟨{"n"}, 1, 3⟩ (by decide)).1 nHit (by decide)⟩

end YcRadar
